import Mathlib

/-!
Verification of the dbkb repository's retrieval, routing, merging and
feedback-processing logic against its natural-language specification.

The definitions below are a shallow embedding of the Python source:

* `src/src/advanced_retrieval/retrieval_techniques.py` (class `AdvancedRetrieval`):
  MD5-based content fingerprinting, the dedup/sort/truncate aggregation step,
  the query cache with its 3600 s TTL, `standard_query`, `query_expansion`,
  `hyde_retrieval`, `multi_strategy_retrieval`, `relationship_retrieval`.
* `src/app.py`: `classify_query_and_get_targets` (the Router) and the
  result-merging section of `multi_kb_query`.
* `src/src/training/feedback_processor.py`: `process_pending_feedback`.

Python machine-level details are made explicit: 32-bit words are `Nat` reduced
mod 2^32, provider scores and wall-clock timestamps are `Rat` (their exact
ordering is all the code uses), fallible provider calls are `Except` values
passed in as oracles, and the in-process dict caches are association lists
threaded through the functions as explicit state.  Free-text log/trace fields
(`thinking_process`) are omitted from result records: no claim mentions them.
-/

namespace Dbkb

/-! ## MD5 (embedding of `hashlib.md5(s.encode()).hexdigest()`) -/

/-- Truncation of a natural number to 32 bits. -/
def w32 (n : Nat) : Nat := n % 4294967296

/-- Addition modulo 2^32. -/
def add32 (a b : Nat) : Nat := (a + b) % 4294967296

/-- Left rotation of a 32-bit word (argument assumed < 2^32). -/
def rotl32 (x s : Nat) : Nat := w32 (x <<< s) ||| (x >>> (32 - s))

/-- MD5 per-round additive constants. -/
def md5K : List Nat :=
  [0xd76aa478, 0xe8c7b756, 0x242070db, 0xc1bdceee,
   0xf57c0faf, 0x4787c62a, 0xa8304613, 0xfd469501,
   0x698098d8, 0x8b44f7af, 0xffff5bb1, 0x895cd7be,
   0x6b901122, 0xfd987193, 0xa679438e, 0x49b40821,
   0xf61e2562, 0xc040b340, 0x265e5a51, 0xe9b6c7aa,
   0xd62f105d, 0x02441453, 0xd8a1e681, 0xe7d3fbc8,
   0x21e1cde6, 0xc33707d6, 0xf4d50d87, 0x455a14ed,
   0xa9e3e905, 0xfcefa3f8, 0x676f02d9, 0x8d2a4c8a,
   0xfffa3942, 0x8771f681, 0x6d9d6122, 0xfde5380c,
   0xa4beea44, 0x4bdecfa9, 0xf6bb4b60, 0xbebfbc70,
   0x289b7ec6, 0xeaa127fa, 0xd4ef3085, 0x04881d05,
   0xd9d4d039, 0xe6db99e5, 0x1fa27cf8, 0xc4ac5665,
   0xf4292244, 0x432aff97, 0xab9423a7, 0xfc93a039,
   0x655b59c3, 0x8f0ccc92, 0xffeff47d, 0x85845dd1,
   0x6fa87e4f, 0xfe2ce6e0, 0xa3014314, 0x4e0811a1,
   0xf7537e82, 0xbd3af235, 0x2ad7d2bb, 0xeb86d391]

/-- MD5 per-round left-rotation amounts. -/
def md5S : List Nat :=
  [7, 12, 17, 22, 7, 12, 17, 22, 7, 12, 17, 22, 7, 12, 17, 22,
   5, 9, 14, 20, 5, 9, 14, 20, 5, 9, 14, 20, 5, 9, 14, 20,
   4, 11, 16, 23, 4, 11, 16, 23, 4, 11, 16, 23, 4, 11, 16, 23,
   6, 10, 15, 21, 6, 10, 15, 21, 6, 10, 15, 21, 6, 10, 15, 21]

/-- MD5 nonlinear round function, selected by round index. -/
def md5F (i b c d : Nat) : Nat :=
  if i < 16 then (b &&& c) ||| ((b ^^^ 0xffffffff) &&& d)
  else if i < 32 then (d &&& b) ||| ((d ^^^ 0xffffffff) &&& c)
  else if i < 48 then b ^^^ c ^^^ d
  else c ^^^ (b ||| (d ^^^ 0xffffffff))

/-- MD5 message-word index for round `i`. -/
def md5G (i : Nat) : Nat :=
  if i < 16 then i
  else if i < 32 then (5 * i + 1) % 16
  else if i < 48 then (3 * i + 5) % 16
  else (7 * i) % 16

/-- One MD5 round over state `(a, b, c, d)` using message words `m`. -/
def md5Step (m : List Nat) (st : Nat × Nat × Nat × Nat) (i : Nat) : Nat × Nat × Nat × Nat :=
  match st with
  | (a, b, c, d) =>
    let f := add32 (add32 (md5F i b c d) a) (add32 (md5K.getD i 0) (m.getD (md5G i) 0))
    (d, add32 b (rotl32 f (md5S.getD i 0)), b, c)

/-- Processing of one 512-bit block given as 16 little-endian words. -/
def md5Block (st : Nat × Nat × Nat × Nat) (m : List Nat) : Nat × Nat × Nat × Nat :=
  match st, (List.range 64).foldl (md5Step m) st with
  | (a0, b0, c0, d0), (a, b, c, d) => (add32 a0 a, add32 b0 b, add32 c0 c, add32 d0 d)

/-- Little-endian byte rendering (4 bytes) of a 32-bit word. -/
def bytesLE4 (n : Nat) : List Nat :=
  [n % 256, (n >>> 8) % 256, (n >>> 16) % 256, (n >>> 24) % 256]

/-- Little-endian byte rendering (8 bytes) of the 64-bit bit-length. -/
def bytesLE8 (n : Nat) : List Nat :=
  [n % 256, (n >>> 8) % 256, (n >>> 16) % 256, (n >>> 24) % 256,
   (n >>> 32) % 256, (n >>> 40) % 256, (n >>> 48) % 256, (n >>> 56) % 256]

/-- MD5 padding: append 0x80, zero-pad to 56 mod 64, append the bit length. -/
def md5Pad (msg : List Nat) : List Nat :=
  msg ++ [0x80] ++ List.replicate ((119 - msg.length % 64) % 64) 0
      ++ bytesLE8 ((msg.length * 8) % 18446744073709551616)

/-- Grouping of bytes into little-endian 32-bit words. -/
def toWordsLE (bytes : List Nat) : List Nat :=
  (List.range (bytes.length / 4)).map fun i =>
    bytes.getD (4 * i) 0 + (bytes.getD (4 * i + 1) 0) <<< 8
      + (bytes.getD (4 * i + 2) 0) <<< 16 + (bytes.getD (4 * i + 3) 0) <<< 24

/-- MD5 digest (16 bytes) of a byte list. -/
def md5Bytes (msg : List Nat) : List Nat :=
  let padded := md5Pad msg
  match (List.range (padded.length / 64)).foldl
      (fun st i => md5Block st (toWordsLE (List.take 64 (List.drop (64 * i) padded))))
      (0x67452301, 0xefcdab89, 0x98badcfe, 0x10325476) with
  | (a, b, c, d) => bytesLE4 a ++ bytesLE4 b ++ bytesLE4 c ++ bytesLE4 d

/-- Lower-case hexadecimal digit. -/
def hexDigit (n : Nat) : Char := if n < 10 then Char.ofNat (48 + n) else Char.ofNat (87 + n)

/-- Two-digit lower-case hexadecimal rendering of a byte. -/
def byteHex (b : Nat) : List Char := [hexDigit (b / 16), hexDigit (b % 16)]

/-- Hex string of a byte list, as `hexdigest()` renders it. -/
def md5HexBytes (msg : List Nat) : String := String.mk ((msg.map byteHex).flatten)

/-- UTF-8 encoding of one character, as `str.encode()` produces it. -/
def utf8Bytes (c : Char) : List Nat :=
  let n := c.toNat
  if n < 0x80 then [n]
  else if n < 0x800 then [0xc0 ||| (n >>> 6), 0x80 ||| (n &&& 0x3f)]
  else if n < 0x10000 then
    [0xe0 ||| (n >>> 12), 0x80 ||| ((n >>> 6) &&& 0x3f), 0x80 ||| (n &&& 0x3f)]
  else
    [0xf0 ||| (n >>> 18), 0x80 ||| ((n >>> 12) &&& 0x3f),
     0x80 ||| ((n >>> 6) &&& 0x3f), 0x80 ||| (n &&& 0x3f)]

/-- UTF-8 bytes of a string. -/
def strBytes (s : String) : List Nat := (s.data.map utf8Bytes).flatten

/-- Embedding of `hashlib.md5(s.encode()).hexdigest()`. -/
def md5Hex (s : String) : String := md5HexBytes (md5Bytes (strBytes s))

/-! ## Retrieved contexts and the aggregation step

Embeds the context dicts built in `retrieval_techniques.py` and the
dedup/sort/truncate block shared by `query_expansion` (lines 270-278),
`multi_strategy_retrieval` (lines 480-488) and `relationship_retrieval`
(lines 587-595). -/

/-- A retrieved context dict (`content`, `source`, `content_sample`, `score`).
The optional `from_query` key is dropped: no claim mentions it. -/
structure Context where
  content : String
  source : String
  content_sample : String
  score : Rat
  deriving DecidableEq, Repr

/-- Dedup key of a context: `hashlib.md5(context['content'].encode()).hexdigest()`. -/
def contentFingerprint (c : Context) : String := md5Hex c.content

/-- One iteration of the dedup loop: Python dict assignment
`unique_contexts[h] = context` guarded by
`h not in unique_contexts or context['score'] > unique_contexts[h]['score']`.
A present key keeps its position (CPython dicts update in place); a new key is
appended at the end. -/
def dedupInsert (m : List (String × Context)) (key : String) (c : Context) :
    List (String × Context) :=
  match m with
  | [] => [(key, c)]
  | (k, c') :: rest =>
    if key = k then
      if c'.score < c.score then (k, c) :: rest else (k, c') :: rest
    else (k, c') :: dedupInsert rest key c

/-- One step of the dedup fold, hashing the inserted context's content. -/
def dedupStep (m : List (String × Context)) (c : Context) : List (String × Context) :=
  dedupInsert m (contentFingerprint c) c

/-- The full `unique_contexts` dict built by the dedup loop. -/
def dedupMap (cs : List Context) : List (String × Context) := cs.foldl dedupStep []

/-- Surviving contexts: `unique_contexts.values()` in insertion order. -/
def dedupContexts (cs : List Context) : List Context := (dedupMap cs).map Prod.snd

/-- Stable insertion of a context into a list sorted by score descending; an
incoming element goes in front of equal-scored ones, matching the stability of
Python `sorted(..., reverse=True)` under a `foldr`-style insertion sort. -/
def insertByScoreDesc (c : Context) : List Context → List Context
  | [] => [c]
  | x :: xs => if c.score < x.score then x :: insertByScoreDesc c xs else c :: x :: xs

/-- Embedding of `sorted(unique_contexts.values(), key=lambda x: x['score'], reverse=True)`:
a stable sort by score descending. -/
def sortByScoreDesc (cs : List Context) : List Context := cs.foldr insertByScoreDesc []

/-- The aggregation step: deduplicate by content fingerprint keeping the
higher-scored context, sort by score descending, truncate to `n` results. -/
def aggregateContexts (cs : List Context) (n : Nat) : List Context :=
  (sortByScoreDesc (dedupContexts cs)).take n

/-! ## The query cache and the strategy executors -/

/-- A raw item of the Bedrock `retrieve` response: content text, s3 uri, score. -/
structure RetrievedItem where
  text : String
  uri : String
  score : Rat
  deriving DecidableEq, Repr

/-- The context dict built from one retrieval item (the list comprehension in
`standard_query` and its siblings):
`content_sample = text[:500] + '...' if text else ''`. -/
def itemToContext (it : RetrievedItem) : Context :=
  { content := it.text
    source := it.uri
    content_sample := if it.text = "" then "" else String.mk (it.text.data.take 500) ++ "..."
    score := it.score }

/-- A result dict of one retrieval method.  `error` is `some msg` exactly when
the Python dict carries an `'error'` key. -/
structure QueryResult where
  query_text : String
  retrieval_method : String
  contexts : List Context
  error : Option String
  deriving DecidableEq, Repr

/-- One entry of `self.cache`: `{'result': ..., 'timestamp': ...}`. -/
structure CacheEntry where
  result : QueryResult
  timestamp : Rat
  deriving DecidableEq, Repr

/-- The cache dict `self.cache`, keyed by `generate_cache_key` output. -/
abbrev Cache : Type := List (String × CacheEntry)

/-- Dict lookup in the cache. -/
def cacheLookup : Cache → String → Option CacheEntry
  | [], _ => none
  | (k, e) :: rest, key => if key = k then some e else cacheLookup rest key

/-- Dict assignment in the cache: overwrite in place, or append a new key. -/
def cacheInsert : Cache → String → CacheEntry → Cache
  | [], key, e => [(key, e)]
  | (k, e') :: rest, key, e =>
    if key = k then (k, e) :: rest else (k, e') :: cacheInsert rest key e

/-- Embedding of `generate_cache_key(query_text, num_results, method=m)`:
the MD5 hex of `"::".join([query_text, str(num_results), "method:" + m])`. -/
def generateCacheKey (queryText : String) (numResults : Nat) (method : String) : String :=
  md5Hex (queryText ++ "::" ++ toString numResults ++ "::" ++ "method:" ++ method)

/-- Cache TTL: `self.cache_ttl = 3600` seconds. -/
def cacheTtl : Rat := 3600

/-- The successful result dict of `standard_query`. -/
def standardResult (q : String) (items : List RetrievedItem) : QueryResult :=
  { query_text := q
    retrieval_method := "standard"
    contexts := items.map itemToContext
    error := none }

/-- The mock fallback dict `standard_query` returns when `retrieve` raises:
one explanatory context with score 1.0 and an `'error'` key. -/
def mockFallbackResult (q err : String) : QueryResult :=
  { query_text := q
    retrieval_method := "standard (mock fallback)"
    contexts :=
      [{ content := "This is a mock response. The query was: " ++ q ++
            ". There was an error connecting to the knowledge base: " ++ err
         source := "mock-source"
         content_sample := "This is a mock response. The query was: " ++ q ++ "..."
         score := 1 }]
    error := some err }

/-- Embedding of `standard_query(query_text, num_results)`.  The Gateway call
`self.kb_client.retrieve(...)` is the oracle `gateway`: `.ok items` is a normal
response, `.error msg` a raised exception.  Returns the result dict, the cache
after the call, and whether the Gateway was invoked. -/
def standardQuery (st : Cache) (now : Rat) (q : String) (n : Nat)
    (gateway : Except String (List RetrievedItem)) : QueryResult × Cache × Bool :=
  let key := generateCacheKey q n "standard"
  let fresh := fun (_ : Unit) =>
    match gateway with
    | .ok items =>
      let r := standardResult q items
      (r, cacheInsert st key ⟨r, now⟩, true)
    | .error msg => (mockFallbackResult q msg, st, true)
  match cacheLookup st key with
  | some e => if now - e.timestamp < cacheTtl then (e.result, st, false) else fresh ()
  | none => fresh ()

/-- The error-shaped dict `query_expansion` returns from its except branch. -/
def expansionErrorResult (q msg : String) : QueryResult :=
  { query_text := q, retrieval_method := "query_expansion", contexts := [], error := some msg }

/-- Embedding of `query_expansion(query_text, num_results)`.  The try block's
interaction with the Generator and the Gateway (paraphrase generation plus one
`retrieve` per paraphrase) is the oracle `gathered`: `.ok cs` is the collected
`all_contexts` list, `.error msg` an exception reaching the except branch.
The aggregation applied to `.ok` input is the dedup/sort/truncate step. -/
def queryExpansion (st : Cache) (now : Rat) (q : String) (n : Nat)
    (gathered : Except String (List Context)) : QueryResult × Cache :=
  let key := generateCacheKey q n "expansion"
  let fresh := fun (_ : Unit) =>
    match gathered with
    | .ok allContexts =>
      let r : QueryResult :=
        { query_text := q, retrieval_method := "query_expansion"
          contexts := aggregateContexts allContexts n, error := none }
      (r, cacheInsert st key ⟨r, now⟩)
    | .error msg => (expansionErrorResult q msg, st)
  match cacheLookup st key with
  | some e => if now - e.timestamp < cacheTtl then (e.result, st) else fresh ()
  | none => fresh ()

/-- The error-shaped dict `hyde_retrieval` returns from its except branch. -/
def hydeErrorResult (q msg : String) : QueryResult :=
  { query_text := q, retrieval_method := "hyde", contexts := [], error := some msg }

/-- Embedding of `hyde_retrieval(query_text, num_results)`.  The oracle stands
for hypothetical-document generation followed by one `retrieve` call; on
success the contexts are returned as retrieved, with no dedup or re-sort. -/
def hydeRetrieval (st : Cache) (now : Rat) (q : String) (n : Nat)
    (gathered : Except String (List Context)) : QueryResult × Cache :=
  let key := generateCacheKey q n "hyde"
  let fresh := fun (_ : Unit) =>
    match gathered with
    | .ok contexts =>
      let r : QueryResult :=
        { query_text := q, retrieval_method := "hyde", contexts := contexts, error := none }
      (r, cacheInsert st key ⟨r, now⟩)
    | .error msg => (hydeErrorResult q msg, st)
  match cacheLookup st key with
  | some e => if now - e.timestamp < cacheTtl then (e.result, st) else fresh ()
  | none => fresh ()

/-- The error-shaped dict `multi_strategy_retrieval` returns from its except branch. -/
def multiErrorResult (q msg : String) : QueryResult :=
  { query_text := q, retrieval_method := "multi_strategy", contexts := [], error := some msg }

/-- Embedding of `multi_strategy_retrieval(query_text, num_results)`.  The
oracle supplies the context lists of the three sub-strategies (standard,
expansion, HyDE), which never raise themselves; `.error` is an exception
raised elsewhere in the try block.  Their concatenation goes through the
dedup/sort/truncate step. -/
def multiStrategy (st : Cache) (now : Rat) (q : String) (n : Nat)
    (sub : Except String (List Context × List Context × List Context)) : QueryResult × Cache :=
  let key := generateCacheKey q n "multi"
  let fresh := fun (_ : Unit) =>
    match sub with
    | .ok (cs1, cs2, cs3) =>
      let r : QueryResult :=
        { query_text := q, retrieval_method := "multi_strategy"
          contexts := aggregateContexts (cs1 ++ cs2 ++ cs3) n, error := none }
      (r, cacheInsert st key ⟨r, now⟩)
    | .error msg => (multiErrorResult q msg, st)
  match cacheLookup st key with
  | some e => if now - e.timestamp < cacheTtl then (e.result, st) else fresh ()
  | none => fresh ()

/-- A cache in which every stored result is a successfully computed one
(no entry carries an `'error'` key). -/
def goodCache (st : Cache) : Prop := ∀ p ∈ st, p.2.result.error = none

/-! ## The Relationship executor (`relationship_retrieval`) -/

/-- The five canned relationship-probing query strings. -/
def relationshipQueries (t : String) : List String :=
  ["relationships of " ++ t ++ " table",
   t ++ " foreign keys",
   "tables that reference " ++ t,
   t ++ " primary key",
   t ++ " table schema relationships"]

/-- The retrieve requests `relationship_retrieval(table, num_results)` issues:
one per template, each asking for `num_results // len(queries) + 1` results. -/
def relationshipRetrievalRequests (t : String) (k : Nat) : List (String × Nat) :=
  let queries := relationshipQueries t
  queries.map fun q => (q, k / queries.length + 1)

/-! ## The Router (`classify_query_and_get_targets` in `app.py`) -/

/-- The `ApplicationKBs` pydantic model: the database KB id is required, the
support and documentation ids are `Optional[str] = None`. -/
structure ApplicationKBs where
  databaseKnowledgeBaseId : String
  supportKnowledgeBaseId : Option String
  documentationKnowledgeBaseId : Option String
  deriving DecidableEq, Repr

/-- The `QueryTarget` pydantic model (`secondary` defaults to `False`). -/
structure QueryTarget where
  type : String
  kbId : String
  secondary : Bool
  deriving DecidableEq, Repr

/-- Python truthiness of an `Optional[str]`: `None` and `""` are falsy. -/
def optTruthy : Option String → Bool
  | none => false
  | some s => !s.isEmpty

/-- Python `str.lower()` (ASCII range, which covers all router keywords). -/
def pyLower (s : String) : String := String.mk (s.data.map Char.toLower)

/-- Prefix test on character lists. -/
def isPrefixChars : List Char → List Char → Bool
  | [], _ => true
  | _ :: _, [] => false
  | a :: as, b :: bs => a = b && isPrefixChars as bs

/-- Substring test on character lists (Python's `needle in hay`). -/
def containsChars (hay needle : List Char) : Bool :=
  if isPrefixChars needle hay then true
  else
    match hay with
    | [] => false
    | _ :: t => containsChars t needle

/-- Python's `needle in hay` on strings. -/
def strContains (hay needle : String) : Bool := containsChars hay.data needle.data

/-- Database-related keywords. -/
def dbKeywords : List String :=
  ["table", "column", "database", "sql", "query", "schema", "index",
   "foreign key", "primary key", "relationship", "join"]

/-- Support-related keywords. -/
def supportKeywords : List String :=
  ["error", "issue", "problem", "troubleshoot", "fix", "bug", "help",
   "support", "ticket", "resolve"]

/-- Documentation-related keywords. -/
def docKeywords : List String :=
  ["how to", "guide", "tutorial", "documentation", "manual", "instruction",
   "feature", "functionality"]

/-- Embedding of `sum(1 for keyword in keywords if keyword in query_lower)`. -/
def keywordScore (queryLower : String) (keywords : List String) : Nat :=
  (keywords.filter fun k => strContains queryLower k).length

/-- Embedding of `classify_query_and_get_targets(query_text, app_kbs, query_mode)`. -/
def classifyQueryAndGetTargets (queryText : String) (appKbs : ApplicationKBs)
    (queryMode : String) : List QueryTarget :=
  if queryMode = "database" then
    [⟨"database", appKbs.databaseKnowledgeBaseId, false⟩]
  else if queryMode = "support" then
    if optTruthy appKbs.supportKnowledgeBaseId then
      [⟨"support", appKbs.supportKnowledgeBaseId.getD "", false⟩]
    else []
  else if queryMode = "documentation" then
    if optTruthy appKbs.documentationKnowledgeBaseId then
      [⟨"documentation", appKbs.documentationKnowledgeBaseId.getD "", false⟩]
    else []
  else
    let ql := pyLower queryText
    let dbScore := keywordScore ql dbKeywords
    let supportScore := keywordScore ql supportKeywords
    let docScore := keywordScore ql docKeywords
    if dbScore ≥ supportScore ∧ dbScore ≥ docScore then
      [⟨"database", appKbs.databaseKnowledgeBaseId, false⟩]
    else if supportScore > docScore ∧ optTruthy appKbs.supportKnowledgeBaseId then
      [⟨"support", appKbs.supportKnowledgeBaseId.getD "", false⟩]
    else if optTruthy appKbs.documentationKnowledgeBaseId then
      [⟨"documentation", appKbs.documentationKnowledgeBaseId.getD "", false⟩]
    else
      [⟨"database", appKbs.databaseKnowledgeBaseId, false⟩]

/-! ## The Multi-Source Merger (result-merging section of `multi_kb_query`) -/

/-- One per-target result as enriched in `multi_kb_query`:
`{'answer': ..., 'source_type': ..., 'is_secondary': ...}`. -/
structure KBResult where
  answer : String
  source_type : String
  secondaryFlag : Bool
  deriving DecidableEq, Repr

/-- Python `str.title()` over ASCII: uppercase a letter after a non-letter,
lowercase a letter after a letter. -/
def titleChars : Bool → List Char → List Char
  | _, [] => []
  | prevAlpha, c :: cs =>
    (if c.isAlpha then (if prevAlpha then c.toLower else c.toUpper) else c)
      :: titleChars c.isAlpha cs

/-- Python `str.title()` on strings. -/
def pyTitle (s : String) : String := String.mk (titleChars false s.data)

/-- The section appended per secondary result:
`f"\n*From {source_name}:* {secondary['answer'][:200]}..."`. -/
def secondarySection (r : KBResult) : String :=
  "\n*From " ++ pyTitle r.source_type ++ ":* " ++ String.mk (r.answer.data.take 200) ++ "..."

/-- The header the merger starts `secondary_info` with. -/
def relatedInfoHeader : String := "\n\n**Related Information:**\n"

/-- Concatenation of a list of strings (the `secondary_info +=` loop). -/
def concatAll : List String → String
  | [] => ""
  | s :: rest => s ++ concatAll rest

/-- Embedding of the merge section of `multi_kb_query` (app.py lines 564-598):
from `if not results: raise` through the final `primary_result['answer']`.
`none` models the raised `HTTPException` when `results` is empty. -/
def mergeAnswers : List KBResult → Option String
  | [] => none
  | [r] => some r.answer
  | r1 :: r2 :: rest =>
    let results := r1 :: r2 :: rest
    let primaries := results.filter fun r => !r.secondaryFlag
    let secondaries := results.filter fun r => r.secondaryFlag
    match primaries with
    | [] => some r1.answer
    | p :: _ =>
      if secondaries.isEmpty then some p.answer
      else some (p.answer ++ relatedInfoHeader ++ concatAll (secondaries.map secondarySection))

/-- Substring containment stated structurally. -/
def ContainsSub (hay sub : String) : Prop := ∃ pre post : String, hay = pre ++ sub ++ post

/-! ## The Feedback Trainer (`process_pending_feedback`) -/

/-- One row of the `query_feedback` table (the columns the processor reads). -/
structure FeedbackRecord where
  id : Nat
  knowledgeBaseId : String
  companyId : Int
  processingStatus : String
  feedbackType : String
  originalQuery : String
  originalResponse : String
  correctedResponse : String
  feedbackNotes : String
  createdAt : Nat
  deriving DecidableEq, Repr

/-- One row of the `training_data` table. -/
structure TrainingRow where
  id : Nat
  feedbackId : Nat
  companyId : Int
  knowledgeBaseId : String
  queryPattern : String
  correctResponse : String
  incorrectResponse : String
  improvementNotes : String
  deriving DecidableEq, Repr

/-- One row of the `kb_improvement_log` table. -/
structure ImprovementRow where
  id : Nat
  knowledgeBaseId : String
  companyId : Int
  improvementType : String
  description : String
  trainingDataIds : List Nat
  implementationMethod : String
  status : String
  ingestionJobId : Option String
  deriving DecidableEq, Repr

/-- The relational state `process_pending_feedback` touches, with explicit
auto-increment counters for the two tables it inserts into. -/
structure FeedbackDb where
  queryFeedback : List FeedbackRecord
  trainingData : List TrainingRow
  improvementLog : List ImprovementRow
  nextTrainingId : Nat
  nextImprovementId : Nat
  deriving DecidableEq, Repr

/-- Embedding of `generalize_query_pattern`: lower-case, then apply the fixed
replacements in dict insertion order (each replaces all occurrences). -/
def generalizeQueryPattern (q : String) : String :=
  (((((pyLower q).replace "sales orders" "[SALES_ENTITY]").replace
      "customers" "[CUSTOMER_ENTITY]").replace
      "products" "[PRODUCT_ENTITY]").replace
      "orders" "[ORDER_ENTITY]").replace "payments" "[PAYMENT_ENTITY]"

/-- Stable ascending insertion by `createdAt` (for `ORDER BY CreatedAt ASC`). -/
def insertByCreatedAsc (f : FeedbackRecord) : List FeedbackRecord → List FeedbackRecord
  | [] => [f]
  | g :: gs => if g.createdAt < f.createdAt then g :: insertByCreatedAsc f gs else f :: g :: gs

/-- Stable sort by `createdAt` ascending. -/
def sortByCreatedAsc (fs : List FeedbackRecord) : List FeedbackRecord :=
  fs.foldr insertByCreatedAsc []

/-- Embedding of the processor's SELECT: pending correction-type rows for the
(knowledge base, company) pair, ordered by creation time. -/
def pendingFeedbackFor (db : FeedbackDb) (kb : String) (company : Int) : List FeedbackRecord :=
  sortByCreatedAsc (db.queryFeedback.filter fun f =>
    f.knowledgeBaseId == kb && f.companyId == company
      && f.processingStatus == "pending" && f.feedbackType == "correction")

/-- Return value of `process_pending_feedback`; `trainingDataIds` is `none`
when the returned dict has no `training_data_ids` key (the no-pending branch). -/
structure ProcessResult where
  status : String
  processed : Nat
  trainingDataIds : Option (List Nat)
  deriving DecidableEq, Repr

/-- Embedding of `process_pending_feedback(kb_id, company_id, connection)`.
With no pending rows it returns immediately; otherwise it creates one
`training_data` row per pending record (marking it reviewed), then writes one
`kb_improvement_log` row which — since `update_knowledge_base_with_corrections`
always returns a job id — ends up `in_progress` with that id.  `now` feeds the
generated job-id string. -/
def processPendingFeedback (db : FeedbackDb) (kb : String) (company : Int) (now : Nat) :
    ProcessResult × FeedbackDb :=
  let pending := pendingFeedbackFor db kb company
  if pending.isEmpty then
    ({ status := "no_pending_feedback", processed := 0, trainingDataIds := none }, db)
  else
    let step := fun (acc : FeedbackDb × List Nat) (f : FeedbackRecord) =>
      let d := acc.1
      let tid := d.nextTrainingId
      let row : TrainingRow :=
        { id := tid, feedbackId := f.id, companyId := f.companyId
          knowledgeBaseId := f.knowledgeBaseId
          queryPattern := generalizeQueryPattern f.originalQuery
          correctResponse := f.correctedResponse
          incorrectResponse := f.originalResponse
          improvementNotes := f.feedbackNotes }
      let d1 : FeedbackDb :=
        { d with
          trainingData := d.trainingData ++ [row]
          nextTrainingId := tid + 1
          queryFeedback := d.queryFeedback.map fun g =>
            if g.id == f.id then { g with processingStatus := "reviewed" } else g }
      (d1, acc.2 ++ [tid])
    let folded := pending.foldl step (db, [])
    let db1 := folded.1
    let ids := folded.2
    let db2 : FeedbackDb :=
      if ids.isEmpty then db1
      else
        { db1 with
          improvementLog := db1.improvementLog ++
            [{ id := db1.nextImprovementId, knowledgeBaseId := kb, companyId := company
               improvementType := "content_update"
               description := "Processed " ++ toString ids.length ++ " user corrections"
               trainingDataIds := ids
               implementationMethod := "ingestion_job"
               status := "in_progress"
               ingestionJobId :=
                 some ("job-" ++ toString db1.nextImprovementId ++ "-" ++ toString now) }]
          nextImprovementId := db1.nextImprovementId + 1 }
    ({ status := "success", processed := ids.length, trainingDataIds := some ids }, db2)

/-! ## Spec-side definitions

The specification describes the dedup fingerprint as a hash of the
normalized content ("case-fold, collapse whitespace, hash").  The following
definitions follow the spec's words, to be compared with `contentFingerprint`
above, which hashes the raw content as the source does. -/

/-- Collapsing of whitespace runs into single spaces (spec wording). -/
def collapseRuns : List Char → List Char
  | [] => []
  | [c] => [if c.isWhitespace then ' ' else c]
  | c1 :: c2 :: cs =>
    if c1.isWhitespace && c2.isWhitespace then collapseRuns (c2 :: cs)
    else (if c1.isWhitespace then ' ' else c1) :: collapseRuns (c2 :: cs)

/-- Spec-described normalization: case-fold and collapse whitespace
(with outer whitespace trimmed). -/
def normalizeContent (s : String) : String :=
  String.mk ((((collapseRuns (s.data.map Char.toLower)).dropWhile
      (fun c => c = ' ')).reverse.dropWhile (fun c => c = ' ')).reverse)

/-- Spec-described normalization-stable fingerprint: hash of the normalized
content. -/
def specFingerprint (c : Context) : String := md5Hex (normalizeContent c.content)

/-! ## Lemmas about the dedup map -/

theorem mem_dedupInsert (m : List (String × Context)) (k : String) (c : Context)
    (p : String × Context) (hp : p ∈ dedupInsert m k c) : p ∈ m ∨ p = (k, c) := by
  induction m with
  | nil =>
    simp only [dedupInsert, List.mem_singleton] at hp
    exact Or.inr hp
  | cons hd tl ih =>
    obtain ⟨k0, c0⟩ := hd
    simp only [dedupInsert] at hp
    by_cases hk : k = k0
    · rw [if_pos hk] at hp
      by_cases hs : c0.score < c.score
      · rw [if_pos hs] at hp
        rcases List.mem_cons.mp hp with h | h
        · subst hk; exact Or.inr h
        · exact Or.inl (List.mem_cons_of_mem _ h)
      · rw [if_neg hs] at hp
        exact Or.inl hp
    · rw [if_neg hk] at hp
      rcases List.mem_cons.mp hp with h | h
      · exact Or.inl (List.mem_cons.mpr (Or.inl h))
      · rcases ih h with h' | h'
        · exact Or.inl (List.mem_cons_of_mem _ h')
        · exact Or.inr h'

theorem mem_keys_dedupInsert (m : List (String × Context)) (k : String) (c : Context)
    (k' : String) (h : k' ∈ (dedupInsert m k c).map Prod.fst) :
    k' ∈ m.map Prod.fst ∨ k' = k := by
  rcases List.mem_map.mp h with ⟨p, hp, hpk⟩
  rcases mem_dedupInsert m k c p hp with h' | h'
  · exact Or.inl (hpk ▸ List.mem_map_of_mem Prod.fst h')
  · right; rw [← hpk, h']

theorem keysNodup_dedupInsert (m : List (String × Context)) (k : String) (c : Context)
    (h : (m.map Prod.fst).Nodup) : ((dedupInsert m k c).map Prod.fst).Nodup := by
  induction m with
  | nil => simp [dedupInsert]
  | cons hd tl ih =>
    obtain ⟨k0, c0⟩ := hd
    simp only [List.map_cons, List.nodup_cons] at h
    simp only [dedupInsert]
    by_cases hk : k = k0
    · rw [if_pos hk]
      by_cases hs : c0.score < c.score
      · rw [if_pos hs]
        simpa using h
      · rw [if_neg hs]
        simpa using h
    · rw [if_neg hk]
      simp only [List.map_cons, List.nodup_cons]
      refine ⟨fun hmem => ?_, ih h.2⟩
      rcases mem_keys_dedupInsert tl k c k0 hmem with h' | h'
      · exact h.1 h'
      · exact hk h'.symm

theorem exDom_dedupInsert (m : List (String × Context)) (k : String) (c : Context) :
    ∃ p ∈ dedupInsert m k c, p.1 = k ∧ c.score ≤ p.2.score := by
  induction m with
  | nil => exact ⟨(k, c), by simp [dedupInsert], rfl, le_refl _⟩
  | cons hd tl ih =>
    obtain ⟨k0, c0⟩ := hd
    by_cases hk : k = k0
    · by_cases hs : c0.score < c.score
      · exact ⟨(k0, c), by simp [dedupInsert, hk, hs], hk.symm, le_refl _⟩
      · exact ⟨(k0, c0), by simp [dedupInsert, hk, hs], hk.symm, le_of_not_lt hs⟩
    · obtain ⟨p, hp, hp1, hp2⟩ := ih
      refine ⟨p, ?_, hp1, hp2⟩
      simp only [dedupInsert, if_neg hk]
      exact List.mem_cons_of_mem _ hp

theorem preserve_dedupInsert (m : List (String × Context)) (k : String) (c : Context)
    (k' : String) (s : Rat) (h : ∃ p ∈ m, p.1 = k' ∧ s ≤ p.2.score) :
    ∃ p ∈ dedupInsert m k c, p.1 = k' ∧ s ≤ p.2.score := by
  induction m with
  | nil => simp at h
  | cons hd tl ih =>
    obtain ⟨k0, c0⟩ := hd
    obtain ⟨p, hp, hp1, hp2⟩ := h
    by_cases hk : k = k0
    · by_cases hs : c0.score < c.score
      · rcases List.mem_cons.mp hp with rfl | hptl
        · exact ⟨(k0, c), by simp [dedupInsert, hk, hs], hp1, le_trans hp2 (le_of_lt hs)⟩
        · refine ⟨p, ?_, hp1, hp2⟩
          simp only [dedupInsert, if_pos hk, if_pos hs]
          exact List.mem_cons_of_mem _ hptl
      · refine ⟨p, ?_, hp1, hp2⟩
        simpa only [dedupInsert, if_pos hk, if_neg hs] using hp
    · rcases List.mem_cons.mp hp with rfl | hptl
      · refine ⟨(k0, c0), ?_, hp1, hp2⟩
        simp only [dedupInsert, if_neg hk]
        exact List.mem_cons_self _ _
      · obtain ⟨q, hq, hq1, hq2⟩ := ih ⟨p, hptl, hp1, hp2⟩
        refine ⟨q, ?_, hq1, hq2⟩
        simp only [dedupInsert, if_neg hk]
        exact List.mem_cons_of_mem _ hq

theorem fpInv_dedupStep (m : List (String × Context)) (c : Context)
    (h : ∀ p ∈ m, contentFingerprint p.2 = p.1) :
    ∀ p ∈ dedupStep m c, contentFingerprint p.2 = p.1 := by
  intro p hp
  rcases mem_dedupInsert m (contentFingerprint c) c p hp with h' | h'
  · exact h p h'
  · rw [h']

theorem dedupFoldl_good (cs : List Context) (m : List (String × Context))
    (h1 : (m.map Prod.fst).Nodup) (h2 : ∀ p ∈ m, contentFingerprint p.2 = p.1) :
    ((cs.foldl dedupStep m).map Prod.fst).Nodup ∧
      ∀ p ∈ cs.foldl dedupStep m, contentFingerprint p.2 = p.1 := by
  induction cs generalizing m with
  | nil => exact ⟨h1, h2⟩
  | cons c cs ih =>
    simp only [List.foldl_cons]
    exact ih _ (keysNodup_dedupInsert m _ c h1) (fpInv_dedupStep m c h2)

theorem dedupFoldl_mem (cs : List Context) (m : List (String × Context))
    (p : String × Context) (hp : p ∈ cs.foldl dedupStep m) : p ∈ m ∨ p.2 ∈ cs := by
  induction cs generalizing m with
  | nil => exact Or.inl hp
  | cons c cs ih =>
    simp only [List.foldl_cons] at hp
    rcases ih _ hp with h | h
    · rcases mem_dedupInsert m (contentFingerprint c) c p h with h' | h'
      · exact Or.inl h'
      · right
        rw [h']
        exact List.mem_cons_self _ _
    · exact Or.inr (List.mem_cons_of_mem _ h)

theorem dedupFoldl_preserve (cs : List Context) (m : List (String × Context))
    (k' : String) (s : Rat) (h : ∃ p ∈ m, p.1 = k' ∧ s ≤ p.2.score) :
    ∃ p ∈ cs.foldl dedupStep m, p.1 = k' ∧ s ≤ p.2.score := by
  induction cs generalizing m with
  | nil => exact h
  | cons c cs ih => exact ih _ (preserve_dedupInsert m _ c k' s h)

theorem dedupFoldl_dom (cs : List Context) (c : Context) (hc : c ∈ cs)
    (m : List (String × Context)) :
    ∃ p ∈ cs.foldl dedupStep m, p.1 = contentFingerprint c ∧ c.score ≤ p.2.score := by
  induction cs generalizing m with
  | nil => cases hc
  | cons c0 cs ih =>
    simp only [List.foldl_cons]
    rcases List.mem_cons.mp hc with rfl | h
    · exact dedupFoldl_preserve cs _ _ _ (exDom_dedupInsert m _ c)
    · exact ih h _

theorem keysNodup_entries_eq (m : List (String × Context)) (h : (m.map Prod.fst).Nodup)
    (p1 p2 : String × Context) (h1 : p1 ∈ m) (h2 : p2 ∈ m) (hk : p1.1 = p2.1) : p1 = p2 := by
  induction m with
  | nil => cases h1
  | cons hd tl ih =>
    simp only [List.map_cons, List.nodup_cons] at h
    rcases List.mem_cons.mp h1 with rfl | h1' <;> rcases List.mem_cons.mp h2 with rfl | h2'
    · rfl
    · exact absurd (hk ▸ List.mem_map_of_mem Prod.fst h2') h.1
    · exact absurd (hk ▸ List.mem_map_of_mem Prod.fst h1') (hk ▸ h.1)
    · exact ih h.2 h1' h2'

/-! ## Lemmas about the stable descending sort -/

theorem mem_insertByScoreDesc (c : Context) (l : List Context) (x : Context) :
    x ∈ insertByScoreDesc c l ↔ x = c ∨ x ∈ l := by
  induction l with
  | nil => simp [insertByScoreDesc]
  | cons y ys ih =>
    simp only [insertByScoreDesc]
    by_cases h : c.score < y.score
    · rw [if_pos h]
      simp only [List.mem_cons, ih]
      tauto
    · rw [if_neg h]
      simp [List.mem_cons]

theorem pairwise_insertByScoreDesc (c : Context) (l : List Context)
    (h : l.Pairwise fun a b => b.score ≤ a.score) :
    (insertByScoreDesc c l).Pairwise fun a b => b.score ≤ a.score := by
  induction l with
  | nil => simp [insertByScoreDesc]
  | cons y ys ih =>
    rcases List.pairwise_cons.mp h with ⟨hy, hys⟩
    by_cases hlt : c.score < y.score
    · simp only [insertByScoreDesc, if_pos hlt]
      refine List.pairwise_cons.mpr ⟨fun z hz => ?_, ih hys⟩
      rcases (mem_insertByScoreDesc c ys z).mp hz with rfl | hz'
      · exact le_of_lt hlt
      · exact hy z hz'
    · simp only [insertByScoreDesc, if_neg hlt]
      refine List.pairwise_cons.mpr ⟨fun z hz => ?_, h⟩
      rcases List.mem_cons.mp hz with rfl | hz'
      · exact le_of_not_lt hlt
      · exact le_trans (hy z hz') (le_of_not_lt hlt)

theorem sorted_sortByScoreDesc (cs : List Context) :
    (sortByScoreDesc cs).Pairwise fun a b => b.score ≤ a.score := by
  induction cs with
  | nil => simp [sortByScoreDesc]
  | cons c cs ih => exact pairwise_insertByScoreDesc c _ ih

theorem perm_insertByScoreDesc (c : Context) (l : List Context) :
    List.Perm (insertByScoreDesc c l) (c :: l) := by
  induction l with
  | nil => rfl
  | cons y ys ih =>
    by_cases h : c.score < y.score
    · simp only [insertByScoreDesc, if_pos h]
      exact (ih.cons y).trans (List.Perm.swap c y ys)
    · simp only [insertByScoreDesc, if_neg h]
      rfl

theorem perm_sortByScoreDesc (cs : List Context) : List.Perm (sortByScoreDesc cs) cs := by
  induction cs with
  | nil => rfl
  | cons c cs ih => exact (perm_insertByScoreDesc c (sortByScoreDesc cs)).trans (ih.cons c)

/-! ## Claim C1 -/

/-- C1: in the aggregation step (`multi_strategy_retrieval`, shared with
`query_expansion`), at most one context survives per content fingerprint
(conjunct 1), every input context is represented by a surviving context with
the same fingerprint and a score at least as high (conjunct 2), survivors come
from the input (conjunct 3), for two fingerprint-equal contexts with differing
scores exactly the higher-scored one survives (conjunct 4), and the final
output is the surviving set sorted by score descending (conjuncts 5-6)
truncated to the requested result count (conjuncts 7-8). -/
theorem c1_aggregation_dedup_rank_truncate (cs : List Context) (n : Nat) :
    (∀ c1 ∈ dedupContexts cs, ∀ c2 ∈ dedupContexts cs,
        contentFingerprint c1 = contentFingerprint c2 → c1 = c2)
    ∧ (∀ c ∈ cs, ∃ p ∈ dedupContexts cs,
        contentFingerprint p = contentFingerprint c ∧ c.score ≤ p.score)
    ∧ (∀ p ∈ dedupContexts cs, p ∈ cs)
    ∧ (∀ c1 c2 : Context, contentFingerprint c1 = contentFingerprint c2 →
        c1.score < c2.score → dedupContexts [c1, c2] = [c2])
    ∧ (aggregateContexts cs n).Pairwise (fun a b => b.score ≤ a.score)
    ∧ List.Perm (sortByScoreDesc (dedupContexts cs)) (dedupContexts cs)
    ∧ aggregateContexts cs n = (sortByScoreDesc (dedupContexts cs)).take n
    ∧ (aggregateContexts cs n).length = min n (dedupContexts cs).length := by
  obtain ⟨hnodup, hfp⟩ := dedupFoldl_good cs [] (by simp) (by simp)
  refine ⟨?_, ?_, ?_, ?_, ?_, perm_sortByScoreDesc _, rfl, ?_⟩
  · intro c1 h1 c2 h2 heq
    rcases List.mem_map.mp h1 with ⟨p1, hp1, hv1⟩
    rcases List.mem_map.mp h2 with ⟨p2, hp2, hv2⟩
    have hkeys : p1.1 = p2.1 := by
      rw [← hfp p1 hp1, ← hfp p2 hp2, hv1, hv2, heq]
    have := keysNodup_entries_eq _ hnodup p1 p2 hp1 hp2 hkeys
    rw [← hv1, ← hv2, this]
  · intro c hc
    obtain ⟨p, hp, hp1, hp2⟩ := dedupFoldl_dom cs c hc []
    refine ⟨p.2, List.mem_map_of_mem Prod.snd hp, ?_, hp2⟩
    rw [hfp p hp, hp1]
  · intro v hv
    rcases List.mem_map.mp hv with ⟨p, hp, hvp⟩
    rcases dedupFoldl_mem cs [] p hp with h | h
    · cases h
    · exact hvp ▸ h
  · intro c1 c2 heq hlt
    simp [dedupContexts, dedupMap, dedupStep, dedupInsert, heq, hlt]
  · exact List.Pairwise.sublist (List.take_sublist n _) (sorted_sortByScoreDesc _)
  · simp [aggregateContexts, (perm_sortByScoreDesc (dedupContexts cs)).length_eq]

/-- Witness for C1: two contexts with equal content (hence equal fingerprint)
and differing scores deduplicate to exactly the higher-scored one. -/
theorem c1_witness :
    dedupContexts [⟨"select one", "a", "", 1⟩, ⟨"select one", "b", "", 2⟩]
      = [⟨"select one", "b", "", 2⟩] :=
  (c1_aggregation_dedup_rank_truncate [] 0).2.2.2.1 _ _ rfl (by norm_num)

/-! ## Claim C6 -/

set_option maxRecDepth 20000 in
/-- C6 counterexample: two contents equal after case-folding and
whitespace-collapsing (and with equal spec-described fingerprints) get
different fingerprints from the code, and both survive deduplication, so the
claimed normalization-stability fails on the source. -/
theorem c6_counterexample :
    normalizeContent "Query  Plan" = normalizeContent "query plan"
    ∧ specFingerprint ⟨"Query  Plan", "a", "", 1⟩ = specFingerprint ⟨"query plan", "b", "", 2⟩
    ∧ contentFingerprint ⟨"Query  Plan", "a", "", 1⟩
        ≠ contentFingerprint ⟨"query plan", "b", "", 2⟩
    ∧ dedupContexts [⟨"Query  Plan", "a", "", 1⟩, ⟨"query plan", "b", "", 2⟩]
        = [⟨"Query  Plan", "a", "", 1⟩, ⟨"query plan", "b", "", 2⟩] := by
  refine ⟨by decide, by decide, by decide, by decide⟩

/-- C6 (amended): the dedup fingerprint is the MD5 of the raw content, so it
is deterministic in the raw content — equal contents always fingerprint
equally and merge into a single surviving entry — but contents differing only
in case or whitespace are not identified (see the counterexample). -/
theorem c6_amended_raw_content_fingerprint (c1 c2 : Context)
    (h : c1.content = c2.content) :
    contentFingerprint c1 = contentFingerprint c2
    ∧ (dedupContexts [c1, c2]).length = 1 := by
  have hfp : contentFingerprint c1 = contentFingerprint c2 := by
    unfold contentFingerprint
    rw [h]
  refine ⟨hfp, ?_⟩
  by_cases hs : c1.score < c2.score <;>
    simp [dedupContexts, dedupMap, dedupStep, dedupInsert, hfp, hs]

/-- Witness for the amended C6 at concrete contexts with equal raw content. -/
theorem c6_amended_witness :
    contentFingerprint ⟨"select", "a", "", 1⟩ = contentFingerprint ⟨"select", "b", "", 2⟩
    ∧ (dedupContexts [⟨"select", "a", "", 1⟩, ⟨"select", "b", "", 2⟩]).length = 1 :=
  c6_amended_raw_content_fingerprint _ _ rfl

/-! ## Claim C3 -/

/-- C3 counterexample: with forced mode `support` and no support source
configured, the Router returns the empty list — it neither falls back to the
database source nor keeps the output non-empty. -/
theorem c3_counterexample :
    classifyQueryAndGetTargets "how do I configure backups" ⟨"kb-db", none, none⟩ "support"
      = [] := by
  rfl

/-- C3 (amended): `mode=database` always yields exactly one database-type
target; forced `support` or `documentation` modes yield a single target of
that type when the corresponding source exists and the empty list otherwise
(there is no fallback to the database source, so the output can be empty);
any other mode (smart routing) yields exactly one target; every emitted
target is non-secondary. -/
theorem c3_amended_router_targets (q : String) (kbs : ApplicationKBs) (mode : String) :
    (mode = "database" →
      classifyQueryAndGetTargets q kbs mode = [⟨"database", kbs.databaseKnowledgeBaseId, false⟩])
    ∧ (mode = "support" → optTruthy kbs.supportKnowledgeBaseId = true →
      classifyQueryAndGetTargets q kbs mode =
        [⟨"support", kbs.supportKnowledgeBaseId.getD "", false⟩])
    ∧ (mode = "support" → optTruthy kbs.supportKnowledgeBaseId = false →
      classifyQueryAndGetTargets q kbs mode = [])
    ∧ (mode = "documentation" → optTruthy kbs.documentationKnowledgeBaseId = true →
      classifyQueryAndGetTargets q kbs mode =
        [⟨"documentation", kbs.documentationKnowledgeBaseId.getD "", false⟩])
    ∧ (mode = "documentation" → optTruthy kbs.documentationKnowledgeBaseId = false →
      classifyQueryAndGetTargets q kbs mode = [])
    ∧ (mode ≠ "database" → mode ≠ "support" → mode ≠ "documentation" →
      (classifyQueryAndGetTargets q kbs mode).length = 1)
    ∧ (∀ t ∈ classifyQueryAndGetTargets q kbs mode, t.secondary = false) := by
  refine ⟨?_, ?_, ?_, ?_, ?_, ?_, ?_⟩
  · intro h
    simp [classifyQueryAndGetTargets, h]
  · intro h ht
    subst h
    simp [classifyQueryAndGetTargets, ht]
  · intro h ht
    subst h
    simp [classifyQueryAndGetTargets, ht]
  · intro h ht
    subst h
    simp [classifyQueryAndGetTargets, ht]
  · intro h ht
    subst h
    simp [classifyQueryAndGetTargets, ht]
  · intro h1 h2 h3
    simp only [classifyQueryAndGetTargets, if_neg h1, if_neg h2, if_neg h3]
    split_ifs <;> rfl
  · intro t ht
    simp only [classifyQueryAndGetTargets] at ht
    split_ifs at ht <;> simp_all

/-- Witness for the amended C3: forced database mode at a concrete input. -/
theorem c3_amended_witness :
    classifyQueryAndGetTargets "anything" ⟨"kb-db", none, some "kb-doc"⟩ "database"
      = [⟨"database", "kb-db", false⟩] :=
  (c3_amended_router_targets "anything" ⟨"kb-db", none, some "kb-doc"⟩ "database").1 rfl

/-! ## Claim C4 -/

/-- C4 counterexample: the query "error guide" scores 0 on database keywords
and 1 on both support and documentation keywords; the claimed tie order
database > support > documentation would route it to support, but the code
routes it to documentation even though a support source exists. -/
theorem c4_counterexample :
    keywordScore (pyLower "error guide") dbKeywords = 0
    ∧ keywordScore (pyLower "error guide") supportKeywords = 1
    ∧ keywordScore (pyLower "error guide") docKeywords = 1
    ∧ classifyQueryAndGetTargets "error guide" ⟨"kb-db", some "kb-sup", some "kb-doc"⟩ "smart"
        = [⟨"documentation", "kb-doc", false⟩] := by
  refine ⟨by decide, by decide, by decide, by decide⟩

/-- C4 (amended): in smart mode the Router picks database whenever its count
is at least both others (so ties involving database resolve to database, and
in particular two or more database keywords with zero support/documentation
keywords route to database); support is picked only when its count strictly
exceeds the documentation count and the support source exists; a
support-documentation tie with database strictly lower resolves to
documentation (when that source exists), not to support. -/
theorem c4_amended_smart_routing (q : String) (kbs : ApplicationKBs) :
    (keywordScore (pyLower q) supportKeywords ≤ keywordScore (pyLower q) dbKeywords →
      keywordScore (pyLower q) docKeywords ≤ keywordScore (pyLower q) dbKeywords →
      classifyQueryAndGetTargets q kbs "smart"
        = [⟨"database", kbs.databaseKnowledgeBaseId, false⟩])
    ∧ (keywordScore (pyLower q) dbKeywords < keywordScore (pyLower q) supportKeywords →
      keywordScore (pyLower q) docKeywords < keywordScore (pyLower q) supportKeywords →
      optTruthy kbs.supportKnowledgeBaseId = true →
      classifyQueryAndGetTargets q kbs "smart"
        = [⟨"support", kbs.supportKnowledgeBaseId.getD "", false⟩])
    ∧ (keywordScore (pyLower q) dbKeywords < keywordScore (pyLower q) supportKeywords →
      keywordScore (pyLower q) supportKeywords = keywordScore (pyLower q) docKeywords →
      optTruthy kbs.documentationKnowledgeBaseId = true →
      classifyQueryAndGetTargets q kbs "smart"
        = [⟨"documentation", kbs.documentationKnowledgeBaseId.getD "", false⟩])
    ∧ (2 ≤ keywordScore (pyLower q) dbKeywords →
      keywordScore (pyLower q) supportKeywords = 0 →
      keywordScore (pyLower q) docKeywords = 0 →
      classifyQueryAndGetTargets q kbs "smart"
        = [⟨"database", kbs.databaseKnowledgeBaseId, false⟩]) := by
  have hm1 : ("smart" : String) ≠ "database" := by decide
  have hm2 : ("smart" : String) ≠ "support" := by decide
  have hm3 : ("smart" : String) ≠ "documentation" := by decide
  simp only [classifyQueryAndGetTargets, if_neg hm1, if_neg hm2, if_neg hm3]
  refine ⟨?_, ?_, ?_, ?_⟩
  · intro h1 h2
    rw [if_pos ⟨h1, h2⟩]
  · intro h1 h2 h3
    rw [if_neg (by rintro ⟨a, _⟩; omega), if_pos ⟨h2, h3⟩]
  · intro h1 h2 h3
    rw [if_neg (by rintro ⟨a, _⟩; omega), if_neg (by rintro ⟨a, _⟩; omega), if_pos h3]
  · intro h1 h2 h3
    rw [if_pos ⟨by omega, by omega⟩]

/-- Witness for the amended C4: a query with two database keywords and no
support/documentation keywords routes to the database target. -/
theorem c4_amended_witness :
    classifyQueryAndGetTargets "show tables and columns"
        ⟨"kb-db", some "kb-sup", some "kb-doc"⟩ "smart"
      = [⟨"database", "kb-db", false⟩] :=
  (c4_amended_smart_routing "show tables and columns"
      ⟨"kb-db", some "kb-sup", some "kb-doc"⟩).2.2.2 (by decide) (by decide) (by decide)

/-! ## Lemmas about the cache -/

theorem cacheLookup_cacheInsert (st : Cache) (k : String) (e : CacheEntry) :
    cacheLookup (cacheInsert st k e) k = some e := by
  induction st with
  | nil => simp [cacheInsert, cacheLookup]
  | cons hd tl ih =>
    obtain ⟨k0, e0⟩ := hd
    by_cases h : k = k0
    · simp [cacheInsert, cacheLookup, h]
    · simp [cacheInsert, cacheLookup, h, ih]

theorem goodCache_cacheInsert (st : Cache) (k : String) (e : CacheEntry)
    (hst : goodCache st) (he : e.result.error = none) : goodCache (cacheInsert st k e) := by
  induction st with
  | nil =>
    intro p hp
    simp only [cacheInsert, List.mem_singleton] at hp
    rw [hp]
    exact he
  | cons hd tl ih =>
    obtain ⟨k0, e0⟩ := hd
    intro p hp
    by_cases h : k = k0
    · simp only [cacheInsert, if_pos h] at hp
      rcases List.mem_cons.mp hp with rfl | hp'
      · exact he
      · exact hst p (List.mem_cons_of_mem _ hp')
    · simp only [cacheInsert, if_neg h] at hp
      rcases List.mem_cons.mp hp with rfl | hp'
      · exact hst _ (List.mem_cons_self _ _)
      · exact ih (fun r hr => hst r (List.mem_cons_of_mem _ hr)) p hp'

/-! ## Claim C2 -/

/-- C2: a `standard_query` call that finds a cache entry under the same
(query, num_results) key within the TTL (3600 s) returns the stored result
with no Gateway invocation and no cache change; once the TTL has elapsed, the
call invokes the Gateway and (when the Gateway responds) returns a freshly
computed result and overwrites the cache entry at that key. -/
theorem c2_standard_query_cache_ttl (st : Cache) (now : Rat) (q : String) (n : Nat)
    (gw : Except String (List RetrievedItem)) (e : CacheEntry)
    (hl : cacheLookup st (generateCacheKey q n "standard") = some e) :
    (now - e.timestamp < cacheTtl →
      standardQuery st now q n gw = (e.result, st, false))
    ∧ (¬ now - e.timestamp < cacheTtl → ∀ items, gw = .ok items →
      standardQuery st now q n gw =
        (standardResult q items,
          cacheInsert st (generateCacheKey q n "standard") ⟨standardResult q items, now⟩,
          true)
      ∧ cacheLookup (standardQuery st now q n gw).2.1 (generateCacheKey q n "standard")
          = some ⟨standardResult q items, now⟩) := by
  constructor
  · intro httl
    simp [standardQuery, hl, httl]
  · intro httl items hgw
    subst hgw
    refine ⟨by simp [standardQuery, hl, httl], ?_⟩
    simp [standardQuery, hl, httl, cacheLookup_cacheInsert]

/-- Witness for C2: a concrete cache hit 90 seconds after storage returns the
stored result without touching the state. -/
theorem c2_witness :
    standardQuery [(generateCacheKey "list users" 5 "standard",
        ⟨standardResult "list users" [], 10⟩)] 100 "list users" 5 (.ok [])
      = (standardResult "list users" [],
         [(generateCacheKey "list users" 5 "standard",
            ⟨standardResult "list users" [], 10⟩)], false) :=
  (c2_standard_query_cache_ttl _ 100 "list users" 5 (.ok [])
      ⟨standardResult "list users" [], 10⟩ (by simp [cacheLookup])).1 (by norm_num [cacheTtl])

/-! ## Claim C7 -/

/-- C7: when the Gateway `retrieve` call raises, `standard_query` returns
normally with the mock fallback dict — exactly one explanatory context whose
score is 1.0 — instead of propagating the exception, and leaves the cache
unchanged. -/
theorem c7_standard_query_error_fallback (st : Cache) (now : Rat) (q : String) (n : Nat)
    (msg : String) (hmiss : cacheLookup st (generateCacheKey q n "standard") = none) :
    standardQuery st now q n (.error msg) = (mockFallbackResult q msg, st, true)
    ∧ (mockFallbackResult q msg).contexts.length = 1
    ∧ (∀ c ∈ (mockFallbackResult q msg).contexts, c.score = 1)
    ∧ (mockFallbackResult q msg).error = some msg := by
  refine ⟨by simp [standardQuery, hmiss], rfl, ?_, rfl⟩
  intro c hc
  simp only [mockFallbackResult, List.mem_singleton] at hc
  rw [hc]

/-- Witness for C7 on the empty cache. -/
theorem c7_witness :
    standardQuery [] 0 "list users" 5 (.error "connection refused")
      = (mockFallbackResult "list users" "connection refused", [], true) :=
  (c7_standard_query_error_fallback [] 0 "list users" 5 "connection refused" rfl).1

/-! ## Claim C10 -/

theorem queryExpansion_error_state (st : Cache) (now : Rat) (q : String) (n : Nat)
    (msg : String) : (queryExpansion st now q n (.error msg)).2 = st := by
  cases hlk : cacheLookup st (generateCacheKey q n "expansion") with
  | some e =>
    by_cases httl : now - e.timestamp < cacheTtl <;> simp [queryExpansion, hlk, httl]
  | none => simp [queryExpansion, hlk]

theorem hydeRetrieval_error_state (st : Cache) (now : Rat) (q : String) (n : Nat)
    (msg : String) : (hydeRetrieval st now q n (.error msg)).2 = st := by
  cases hlk : cacheLookup st (generateCacheKey q n "hyde") with
  | some e =>
    by_cases httl : now - e.timestamp < cacheTtl <;> simp [hydeRetrieval, hlk, httl]
  | none => simp [hydeRetrieval, hlk]

theorem multiStrategy_error_state (st : Cache) (now : Rat) (q : String) (n : Nat)
    (msg : String) : (multiStrategy st now q n (.error msg)).2 = st := by
  cases hlk : cacheLookup st (generateCacheKey q n "multi") with
  | some e =>
    by_cases httl : now - e.timestamp < cacheTtl <;> simp [multiStrategy, hlk, httl]
  | none => simp [multiStrategy, hlk]

theorem queryExpansion_cache_cases (st : Cache) (now : Rat) (q : String) (n : Nat)
    (g : Except String (List Context)) :
    (queryExpansion st now q n g).2 = st ∨
    ∃ r : QueryResult, r.error = none ∧
      (queryExpansion st now q n g).2
        = cacheInsert st (generateCacheKey q n "expansion") ⟨r, now⟩ := by
  cases hlk : cacheLookup st (generateCacheKey q n "expansion") with
  | some e =>
    by_cases httl : now - e.timestamp < cacheTtl
    · left
      simp [queryExpansion, hlk, httl]
    · cases g with
      | ok cs =>
        refine Or.inr ⟨(queryExpansion st now q n (.ok cs)).1, ?_, ?_⟩ <;>
          simp [queryExpansion, hlk, httl]
      | error m =>
        left
        simp [queryExpansion, hlk, httl]
  | none =>
    cases g with
    | ok cs =>
      refine Or.inr ⟨(queryExpansion st now q n (.ok cs)).1, ?_, ?_⟩ <;>
        simp [queryExpansion, hlk]
    | error m =>
      left
      simp [queryExpansion, hlk]

theorem hydeRetrieval_cache_cases (st : Cache) (now : Rat) (q : String) (n : Nat)
    (g : Except String (List Context)) :
    (hydeRetrieval st now q n g).2 = st ∨
    ∃ r : QueryResult, r.error = none ∧
      (hydeRetrieval st now q n g).2
        = cacheInsert st (generateCacheKey q n "hyde") ⟨r, now⟩ := by
  cases hlk : cacheLookup st (generateCacheKey q n "hyde") with
  | some e =>
    by_cases httl : now - e.timestamp < cacheTtl
    · left
      simp [hydeRetrieval, hlk, httl]
    · cases g with
      | ok cs =>
        refine Or.inr ⟨(hydeRetrieval st now q n (.ok cs)).1, ?_, ?_⟩ <;>
          simp [hydeRetrieval, hlk, httl]
      | error m =>
        left
        simp [hydeRetrieval, hlk, httl]
  | none =>
    cases g with
    | ok cs =>
      refine Or.inr ⟨(hydeRetrieval st now q n (.ok cs)).1, ?_, ?_⟩ <;>
        simp [hydeRetrieval, hlk]
    | error m =>
      left
      simp [hydeRetrieval, hlk]

theorem multiStrategy_cache_cases (st : Cache) (now : Rat) (q : String) (n : Nat)
    (g : Except String (List Context × List Context × List Context)) :
    (multiStrategy st now q n g).2 = st ∨
    ∃ r : QueryResult, r.error = none ∧
      (multiStrategy st now q n g).2
        = cacheInsert st (generateCacheKey q n "multi") ⟨r, now⟩ := by
  cases hlk : cacheLookup st (generateCacheKey q n "multi") with
  | some e =>
    by_cases httl : now - e.timestamp < cacheTtl
    · left
      simp [multiStrategy, hlk, httl]
    · cases g with
      | ok cs =>
        obtain ⟨cs1, cs2, cs3⟩ := cs
        refine Or.inr ⟨(multiStrategy st now q n (.ok (cs1, cs2, cs3))).1, ?_, ?_⟩ <;>
          simp [multiStrategy, hlk, httl]
      | error m =>
        left
        simp [multiStrategy, hlk, httl]
  | none =>
    cases g with
    | ok cs =>
      obtain ⟨cs1, cs2, cs3⟩ := cs
      refine Or.inr ⟨(multiStrategy st now q n (.ok (cs1, cs2, cs3))).1, ?_, ?_⟩ <;>
        simp [multiStrategy, hlk]
    | error m =>
      left
      simp [multiStrategy, hlk]

/-- C10: the cache only ever stores successful results.  A failing
`query_expansion`, `hyde_retrieval` or `multi_strategy_retrieval` call leaves
the cache exactly unchanged (so its error-shaped result is never stored, and
its key stays absent for a fresh recomputation), and each of the three calls
preserves the invariant that every cache entry's stored result has no
`'error'` key. -/
theorem c10_cache_only_successful_results (st : Cache) (now : Rat) (q : String) (n : Nat)
    (g : Except String (List Context))
    (g3 : Except String (List Context × List Context × List Context)) (msg : String) :
    (g = .error msg →
      (queryExpansion st now q n g).2 = st ∧ (hydeRetrieval st now q n g).2 = st)
    ∧ (g3 = .error msg → (multiStrategy st now q n g3).2 = st)
    ∧ (cacheLookup st (generateCacheKey q n "expansion") = none → g = .error msg →
        (queryExpansion st now q n g).1 = expansionErrorResult q msg
        ∧ cacheLookup (queryExpansion st now q n g).2 (generateCacheKey q n "expansion") = none)
    ∧ (cacheLookup st (generateCacheKey q n "hyde") = none → g = .error msg →
        (hydeRetrieval st now q n g).1 = hydeErrorResult q msg)
    ∧ (cacheLookup st (generateCacheKey q n "multi") = none → g3 = .error msg →
        (multiStrategy st now q n g3).1 = multiErrorResult q msg)
    ∧ (goodCache st → goodCache (queryExpansion st now q n g).2)
    ∧ (goodCache st → goodCache (hydeRetrieval st now q n g).2)
    ∧ (goodCache st → goodCache (multiStrategy st now q n g3).2) := by
  refine ⟨?_, ?_, ?_, ?_, ?_, ?_, ?_, ?_⟩
  · rintro rfl
    exact ⟨queryExpansion_error_state st now q n msg, hydeRetrieval_error_state st now q n msg⟩
  · rintro rfl
    exact multiStrategy_error_state st now q n msg
  · rintro hmiss rfl
    refine ⟨by simp [queryExpansion, hmiss], ?_⟩
    rw [queryExpansion_error_state st now q n msg]
    exact hmiss
  · rintro hmiss rfl
    simp [hydeRetrieval, hmiss]
  · rintro hmiss rfl
    simp [multiStrategy, hmiss]
  · intro hst
    rcases queryExpansion_cache_cases st now q n g with h | ⟨r, hr, h⟩
    · rw [h]; exact hst
    · rw [h]; exact goodCache_cacheInsert st _ _ hst hr
  · intro hst
    rcases hydeRetrieval_cache_cases st now q n g with h | ⟨r, hr, h⟩
    · rw [h]; exact hst
    · rw [h]; exact goodCache_cacheInsert st _ _ hst hr
  · intro hst
    rcases multiStrategy_cache_cases st now q n g3 with h | ⟨r, hr, h⟩
    · rw [h]; exact hst
    · rw [h]; exact goodCache_cacheInsert st _ _ hst hr

/-- Witness for C10: a failed expansion call on the empty cache returns the
error-shaped result and stores nothing. -/
theorem c10_witness :
    (queryExpansion [] 0 "list users" 5 (.error "timeout")).1
      = expansionErrorResult "list users" "timeout"
    ∧ cacheLookup (queryExpansion [] 0 "list users" 5 (.error "timeout")).2
        (generateCacheKey "list users" 5 "expansion") = none :=
  (c10_cache_only_successful_results [] 0 "list users" 5 (.error "timeout")
      (.error "timeout") "timeout").2.2.1 rfl rfl

/-! ## Claim C5 -/

theorem containsSub_concat (f : KBResult → String) (ss : List KBResult) (s : KBResult)
    (h : s ∈ ss) (pre : String) : ContainsSub (pre ++ concatAll (ss.map f)) (f s) := by
  induction ss generalizing pre with
  | nil => cases h
  | cons hd tl ih =>
    rcases List.mem_cons.mp h with rfl | h'
    · refine ⟨pre, concatAll (tl.map f), ?_⟩
      show pre ++ (f s ++ concatAll (tl.map f)) = pre ++ f s ++ concatAll (tl.map f)
      rw [String.append_assoc]
    · have hrec := ih h' (pre ++ f hd)
      have heq : pre ++ f hd ++ concatAll (tl.map f)
          = pre ++ concatAll ((hd :: tl).map f) := by
        show pre ++ f hd ++ concatAll (tl.map f) = pre ++ (f hd ++ concatAll (tl.map f))
        rw [String.append_assoc]
      rwa [heq] at hrec

/-- C5: when the Merger sees at least one primary (non-secondary) result with
answer `A` and at least one secondary result, all answers longer than 200
characters, the merged answer is exactly `A` followed by the related-info
header and one labeled section per secondary; hence it starts with `A` in
full, and for each secondary it contains that secondary's section — the
first 200 characters of its answer labeled with its (title-cased) source
type. -/
theorem c5_merge_primary_and_excerpts (results : List KBResult) (p : KBResult)
    (hp : (results.filter fun r => !r.secondaryFlag).head? = some p)
    (hs : results.filter (fun r => r.secondaryFlag) ≠ [])
    (hlenA : 200 < p.answer.length)
    (hlenB : ∀ s ∈ results.filter (fun r => r.secondaryFlag), 200 < s.answer.length) :
    mergeAnswers results
      = some (p.answer ++ relatedInfoHeader
          ++ concatAll ((results.filter (fun r => r.secondaryFlag)).map secondarySection))
    ∧ (∃ rest : String, mergeAnswers results = some (p.answer ++ rest))
    ∧ ∀ s ∈ results.filter (fun r => r.secondaryFlag),
        ∀ m : String, mergeAnswers results = some m →
          ContainsSub m
            ("\n*From " ++ pyTitle s.source_type ++ ":* "
              ++ String.mk (s.answer.data.take 200) ++ "...") := by
  cases results with
  | nil => simp at hp
  | cons r1 rs =>
    cases rs with
    | nil =>
      cases hb : r1.secondaryFlag with
      | true => simp [hb] at hp
      | false => simp [hb] at hs
    | cons r2 rest =>
      have hmain : mergeAnswers (r1 :: r2 :: rest)
          = some (p.answer ++ relatedInfoHeader
              ++ concatAll (((r1 :: r2 :: rest).filter (fun r => r.secondaryFlag)).map
                  secondarySection)) := by
        simp only [mergeAnswers]
        cases hf : (r1 :: r2 :: rest).filter (fun r => !r.secondaryFlag) with
        | nil =>
          rw [hf] at hp
          simp at hp
        | cons p' ps =>
          rw [hf] at hp
          simp only [List.head?_cons, Option.some.injEq] at hp
          subst hp
          dsimp only
          rw [if_neg (by simpa [List.isEmpty_iff] using hs)]
      refine ⟨hmain, ⟨relatedInfoHeader
          ++ concatAll (((r1 :: r2 :: rest).filter (fun r => r.secondaryFlag)).map
              secondarySection), by rw [hmain, String.append_assoc]⟩, ?_⟩
      intro s hsS m hm
      rw [hmain] at hm
      have hm' : m = p.answer ++ relatedInfoHeader
          ++ concatAll (((r1 :: r2 :: rest).filter (fun r => r.secondaryFlag)).map
              secondarySection) :=
        (Option.some.inj hm).symm
      rw [hm']
      exact containsSub_concat secondarySection _ s hsS (p.answer ++ relatedInfoHeader)

set_option maxRecDepth 20000 in
/-- Witness for C5: one primary and one secondary result, both with answers
of 201 characters. -/
theorem c5_witness :
    mergeAnswers
        [⟨String.mk (List.replicate 201 'a'), "database", false⟩,
         ⟨String.mk (List.replicate 201 'b'), "support", true⟩]
      = some (String.mk (List.replicate 201 'a') ++ relatedInfoHeader
          ++ concatAll
              (([⟨String.mk (List.replicate 201 'a'), "database", false⟩,
                 ⟨String.mk (List.replicate 201 'b'), "support", true⟩].filter
                  (fun r => r.secondaryFlag)).map secondarySection)) :=
  (c5_merge_primary_and_excerpts
      [⟨String.mk (List.replicate 201 'a'), "database", false⟩,
       ⟨String.mk (List.replicate 201 'b'), "support", true⟩]
      ⟨String.mk (List.replicate 201 'a'), "database", false⟩
      (by decide) (by decide) (by decide) (by decide)).1

/-! ## Claim C8 -/

/-- C8: with zero pending correction-type records for the (knowledge base,
company) pair, `process_pending_feedback` returns `status=no_pending_feedback`
and performs no mutation: the training data, improvement log and feedback
statuses are all exactly unchanged. -/
theorem c8_no_pending_feedback_noop (db : FeedbackDb) (kb : String) (company : Int)
    (now : Nat) (h : pendingFeedbackFor db kb company = []) :
    processPendingFeedback db kb company now
      = ({ status := "no_pending_feedback", processed := 0, trainingDataIds := none }, db)
    ∧ (processPendingFeedback db kb company now).2.trainingData = db.trainingData
    ∧ (processPendingFeedback db kb company now).2.improvementLog = db.improvementLog
    ∧ (processPendingFeedback db kb company now).2.queryFeedback = db.queryFeedback := by
  have h1 : processPendingFeedback db kb company now
      = ({ status := "no_pending_feedback", processed := 0, trainingDataIds := none }, db) := by
    simp [processPendingFeedback, h]
  exact ⟨h1, by rw [h1], by rw [h1], by rw [h1]⟩

/-- Witness for C8 on an empty database state. -/
theorem c8_witness :
    processPendingFeedback ⟨[], [], [], 1, 1⟩ "kb-1" 7 0
      = ({ status := "no_pending_feedback", processed := 0, trainingDataIds := none },
         ⟨[], [], [], 1, 1⟩) :=
  (c8_no_pending_feedback_noop ⟨[], [], [], 1, 1⟩ "kb-1" 7 0 rfl).1

/-! ## Claim C9 -/

/-- C9 counterexample: at the default `num_results = 10` the Relationship
executor requests 3 results per template (`10 // 5 + 1`), while the claimed
ceiling of 10/5 is 2. -/
theorem c9_counterexample :
    (relationshipRetrievalRequests "orders" 10).map Prod.snd = [3, 3, 3, 3, 3]
    ∧ (10 + 4) / 5 = (2 : Nat)
    ∧ (3 : Nat) ≠ (10 + 4) / 5 := by
  refine ⟨rfl, rfl, by decide⟩

/-- C9 (amended): the Relationship executor builds exactly five templated
query strings and requests `k/5` rounded down plus one results per template —
which equals the ceiling of k/5 when 5 does not divide k, and exceeds it by
one (e.g. 3 per template at the default k = 10) when 5 divides k. -/
theorem c9_amended_relationship_requests (t : String) (k : Nat) :
    (relationshipQueries t).length = 5
    ∧ relationshipRetrievalRequests t k
        = (relationshipQueries t).map (fun q => (q, k / 5 + 1))
    ∧ (k % 5 ≠ 0 → k / 5 + 1 = (k + 4) / 5)
    ∧ (k % 5 = 0 → k / 5 + 1 = (k + 4) / 5 + 1) := by
  refine ⟨rfl, rfl, ?_, ?_⟩ <;> intro h <;> omega

/-- Witness for the amended C9: at k = 7 the per-template request count
matches the ceiling of 7/5. -/
theorem c9_amended_witness : (7 : Nat) / 5 + 1 = (7 + 4) / 5 :=
  (c9_amended_relationship_requests "orders" 7).2.2.1 (by decide)

end Dbkb
